import Mathlib

/-!
Verification of `ostree-delta.py` (PelionIoT/scripts-pelion-edge).

The script is a sequential orchestrator: it parses CLI arguments, determines
a machine ref, resolves "from"/"to" revisions via `ostree rev-parse`,
optionally pulls a commit between two repositories, generates a static delta,
writes a two-line metadata file and packages the output directory.

We embed the script shallowly:
* Python string operations are modelled over `List Char` / `String` by small
  structural functions (`pyStartsWith`, `wsTokens`, …) so that every
  definition is executable and kernel-reducible.
* Each subprocess is an oracle: a `RepoWorld` maps a repository path and a
  revision to the output lines the corresponding `ostree` command would print
  (the script itself only ever consumes `stdout` split into lines).
* `main` is modelled after argument parsing succeeded (the script's
  `_parse_args` has already returned an `Args` record); its observable
  behaviour is an exit code plus the trace of the commands it would issue and
  the metadata file content it would write.
-/

/-! ## Python string primitives, modelled structurally -/

/-- Python `s.startswith(tag)`. -/
def pyStartsWith (s tag : String) : Bool :=
  tag.data.isPrefixOf s.data

/-- Helper for `wsTokens`: `cur` is the current (reversed) token. -/
def wsTokensAux (cur : List Char) : List Char → List (List Char)
  | [] => if cur.isEmpty then [] else [cur.reverse]
  | c :: cs =>
    if c.isWhitespace then
      if cur.isEmpty then wsTokensAux [] cs
      else cur.reverse :: wsTokensAux [] cs
    else wsTokensAux (c :: cur) cs

/-- Python `s.split()`: split on runs of whitespace, discarding empties. -/
def wsTokens (cs : List Char) : List (List Char) :=
  wsTokensAux [] cs

/-- The characters after the first `:`;
`none` when there is no colon (Python `s.split(":", 1)[1]` raising). -/
def afterFirstColon : List Char → Option (List Char)
  | [] => none
  | c :: cs => if c = ':' then some cs else afterFirstColon cs

/-- Python `s.strip()`: drop leading and trailing whitespace. -/
def pyStrip (cs : List Char) : List Char :=
  ((cs.dropWhile Char.isWhitespace).reverse.dropWhile Char.isWhitespace).reverse

/-- Python `os.path.join(a, b)` for a relative `b`. -/
def osPathJoin (a b : String) : String :=
  if a = "" then b
  else if a.data.getLast? = some '/' then a ++ b
  else a ++ "/" ++ b

/-! ## `_determine_machine_from_repo` (lines 74–99)

The Python code iterates over `output` *while removing elements from it*:

    for ref in output:
        if ref.startswith("ostree"):
            output.remove(ref)

CPython's list iterator keeps a numeric index that advances by one after
every loop body, while `remove` shifts the later elements left; so the
element that follows a removed one is never examined.  We model that loop
exactly: `refsFilterLoop fuel l i` inspects `l[i]`, removes the first
occurrence when it starts with `"ostree"`, and advances `i`.  The iteration
count is bounded by the initial length of the list (the index grows by one
per step and the list never grows), hence `fuel := refs.length` below makes
the model total without changing its value. -/

def refsFilterLoop : Nat → List String → Nat → List String
  | 0, l, _ => l
  | fuel + 1, l, i =>
    if h : i < l.length then
      let r := l.get ⟨i, h⟩
      if pyStartsWith r "ostree" then refsFilterLoop fuel (l.erase r) (i + 1)
      else refsFilterLoop fuel l (i + 1)
    else l

/-- `_determine_machine_from_repo`, as a function of the lines printed by
`ostree --repo=<repo> refs`.  Returns the machine name, or `none` (in which
case the script prints the candidates and `main` exits with code 2). -/
def determineMachineFromRepo (refs : List String) : Option String :=
  match refsFilterLoop refs.length refs 0 with
  | [m] => some m
  | _ => none

example : determineMachineFromRepo ["ostree/x", "mymachine"] = some "mymachine" := by decide
example : determineMachineFromRepo ["ostree/a", "ostree/b", "x"] = none := by decide
example : determineMachineFromRepo ["ostree/a", "ostree/a"] = some "ostree/a" := by decide

/-! ## `_execute_command` (lines 51–71)

The `except subprocess.TimeoutExpired:` handler begins with

    ExecuteHelper._print("Timed out after {}s".format(timeout))

`ExecuteHelper` is bound nowhere: the module defines only the names in
`moduleGlobalNames` below (its top-level functions plus the plainly imported
modules `argparse`, `os`, …), and `ExecuteHelper` is not a Python builtin.
So the first statement of the handler raises `NameError`, and the
`p.kill()` / `p.communicate()` lines that follow it are unreachable. -/

/-- Every name bound at module level in `ostree-delta.py`: the eight
`import`ed module names followed by the top-level `def`s, in source order. -/
def moduleGlobalNames : List String :=
  ["argparse", "os", "pathlib", "shutil", "subprocess", "sys", "warnings",
   "tarfile", "warning_on_one_line", "warning", "_execute_command",
   "_determine_machine_from_repo", "_get_data_from_repo",
   "_get_shas_from_repo", "_get_version_from_repo", "_rev_parse_in_repo",
   "_get_date_from_repo", "_generate_metadata", "_generate_tarball",
   "_transfer_sha_between_repos", "_generate_static_delta_between_shas",
   "_str_to_resolved_path", "ensure_is_directory", "_parse_args", "main"]

/-- How the spawned subprocess behaves: it either exits (within any timeout)
or is still running when the timeout elapses. -/
inductive ProcRun where
  | completes (stdoutText stderrText : String)
  | timesOut (stdoutText stderrText : String)
deriving DecidableEq, Repr

/-- What `_execute_command` does as observed by its caller. -/
inductive ExecOutcome where
  | returned (output : String)
  | raised (excName : String)
deriving DecidableEq, Repr

/-- `_execute_command`: on normal completion it returns the captured stdout;
on `TimeoutExpired` the handler's first expression looks up the global name
`ExecuteHelper`, which succeeds only if that name is bound at module level
(it is not a builtin), and otherwise raises `NameError` before `p.kill()`
can run. -/
def executeCommand (run : ProcRun) : ExecOutcome :=
  match run with
  | .completes out _ => .returned out
  | .timesOut out _ =>
    if moduleGlobalNames.contains "ExecuteHelper" then
      -- would print, kill the child and re-`communicate`, then return
      .returned out
    else .raised "NameError"

/-! ## `_rev_parse_in_repo` (lines 134–144) -/

/-- `_rev_parse_in_repo`, given the lines `ostree rev-parse <rev>` prints.
First component: the returned hash (`output[0]`, `None` on `IndexError` or
when `rev is None`).  Second component: whether a subprocess was spawned at
all (`False` exactly on the early `rev is None` return). -/
def revParseInRepo (revParseOut : String → List String) (rev : Option String) :
    Option String × Bool :=
  match rev with
  | none => (none, false)
  | some r => ((revParseOut r).head?, true)

/-! ## `_get_data_from_repo` (lines 102–121) and its wrappers -/

/-- The value the loop body of `_get_data_from_repo` appends for a matching
line: `line.split(":", 1)[1].strip()` when the field is `"Date"`, otherwise
`line.split()[1]`.  `none` models the `IndexError` raised when the piece
does not exist. -/
def extractField (data line : String) : Option String :=
  if data = "Date" then
    (afterFirstColon line.data).map (fun cs => String.mk (pyStrip cs))
  else
    ((wsTokens line.data).map String.mk).get? 1

/-- The accumulation loop of `_get_data_from_repo`; `Except.error ()` models
an `IndexError` escaping from the loop body. -/
def getDataLoop (data : String) : List String → Except Unit (List String)
  | [] => .ok []
  | line :: rest =>
    if pyStartsWith line data then
      match extractField data line with
      | none => .error ()
      | some v => (getDataLoop data rest).map (fun vs => v :: vs)
    else getDataLoop data rest

/-- `_get_data_from_repo`, as a function of the lines printed by
`ostree log <machine>`: the collected values when nonempty, else `None`. -/
def getDataFromRepo (logLines : List String) (data : String) :
    Except Unit (Option (List String)) :=
  (getDataLoop data logLines).map
    (fun values => if 0 < values.length then some values else none)

/-- `_get_shas_from_repo`. -/
def getShasFromRepo (logLines : List String) : Except Unit (Option (List String)) :=
  getDataFromRepo logLines "commit"

/-- `_get_version_from_repo`. -/
def getVersionFromRepo (logLines : List String) : Except Unit (Option (List String)) :=
  getDataFromRepo logLines "Version"

/-- `_get_date_from_repo`. -/
def getDateFromRepo (logLines : List String) : Except Unit (Option (List String)) :=
  getDataFromRepo logLines "Date"

/-! ## Metadata, commands and the pipeline of `main` -/

/-- `_generate_metadata` (lines 152–157): the exact content written to
`<output>/metadata` by the two `write` calls. -/
def generateMetadata (from_sha to_sha : String) : String :=
  "From-sha:" ++ from_sha ++ "\n" ++ "To-sha:" ++ to_sha ++ "\n"

/-- The "from" identifier recorded in the metadata file by
`_generate_static_delta_between_shas` (lines 215–220): the machine name when
no from hash exists, the hash otherwise. -/
def metadataFromId (machine : String) (from_sha : Option String) : String :=
  match from_sha with
  | none => machine
  | some f => f

/-- Argv of `_transfer_sha_between_repos` (lines 179–199). -/
def transferCommand (source_repo dest_repo sha : String) : List String :=
  ["ostree", "--repo=" ++ dest_repo, "pull-local", source_repo, sha]

/-- Argv of the `static-delta generate` invocation (lines 237–263). -/
def staticDeltaCommand (repo outputpath to_sha : String)
    (from_sha : Option String) : List String :=
  ["ostree", "--repo=" ++ repo, "static-delta", "generate",
   "--max-chunk-size=2048", "--min-fallback-size=0",
   "--filename=" ++ osPathJoin outputpath "superblock",
   "--to", to_sha] ++
  (match from_sha with
   | none => ["--empty"]
   | some f => ["--from", f])

/-- Argv of the `tar` invocation in `_generate_tarball`. -/
def tarCommand (outputpath : String) : List String :=
  ["tar", "-cf", outputpath ++ "/data.tar", "--directory", outputpath,
   "--exclude=./data.tar", "."]

/-- Argv of the `gzip` invocation in `_generate_tarball`. -/
def gzipCommand (outputpath : String) : List String :=
  ["gzip", "--force", outputpath ++ "/data.tar"]

/-- Argv of the `mv` run under `--generate_bin`. -/
def mvCommand (outputpath : String) : List String :=
  ["mv", outputpath ++ "/data.tar.gz", outputpath ++ "/data.bin"]

/-- The record `_parse_args` returns.  `repo` and `update_repo` hold the
resolved path strings (`_str_to_resolved_path`); comparisons between them in
`main` are Path equality on those resolved values. -/
structure Args where
  repo : String
  output : String
  update_repo : Option String := none
  machine : Option String := none
  to_sha : Option String := none
  from_sha : Option String := none
  generate_bin : Bool := false
  empty : Bool := false
deriving DecidableEq, Repr

/-- The subprocess oracles `main` consumes: for each repository path, the
lines printed by `ostree refs`, and for each repository path and revision
expression, the lines printed by `ostree rev-parse`. -/
structure RepoWorld where
  refs : String → List String
  revParse : String → String → List String

/-- Machine determination in `main` (lines 363–368). -/
def machineOf (w : RepoWorld) (a : Args) : Option String :=
  match a.machine with
  | none => determineMachineFromRepo (w.refs a.repo)
  | some m => some m

/-- `update_repo` defaulting (lines 373–376). -/
def updateRepoOf (a : Args) : String :=
  match a.update_repo with
  | none => a.repo
  | some u => u

/-- `to_rev` defaulting (lines 378–381). -/
def toRevOf (a : Args) (machine : String) : String :=
  match a.to_sha with
  | none => machine
  | some s => s

/-- `from_rev` defaulting (lines 383–394). -/
def fromRevOf (a : Args) (machine : String) : Option String :=
  if a.empty then none
  else
    match a.from_sha with
    | none =>
      if a.repo = updateRepoOf a then some (machine ++ "^")
      else some machine
    | some s => some s

/-- The "to" hash: `_rev_parse_in_repo(update_repo, to_rev)` (line 396). -/
def toShaOf (w : RepoWorld) (a : Args) (machine : String) : Option String :=
  (revParseInRepo (w.revParse (updateRepoOf a)) (some (toRevOf a machine))).1

/-- The "from" hash: `_rev_parse_in_repo(repo, from_rev)` (line 405). -/
def fromShaOf (w : RepoWorld) (a : Args) (machine : String) : Option String :=
  (revParseInRepo (w.revParse a.repo) (fromRevOf a machine)).1

/-- Everything a successful run writes or executes after revision
resolution, in program order. -/
structure SuccessTrace where
  machine : String
  update_repo : String
  to_rev : String
  from_rev : Option String
  to_sha : String
  from_sha : Option String
  /-- Whether the rev-parse for the "from" revision spawned a subprocess. -/
  fromRevParseExecuted : Bool
  /-- The `pull-local` argv, when one is issued. -/
  pullCmd : Option (List String)
  /-- Content of the `metadata` file. -/
  metadata : String
  /-- Argv of `static-delta generate`. -/
  deltaCmd : List String
  /-- Argvs of the packaging steps (`tar`, `gzip`, and `mv` if requested). -/
  packaging : List (List String)
deriving DecidableEq, Repr

/-- The commands issued after both revisions are resolved, in the order
`main` issues them: the optional `pull-local`, then `static-delta generate`,
then packaging. -/
def SuccessTrace.postResolveCommands (t : SuccessTrace) : List (List String) :=
  (match t.pullCmd with
   | none => []
   | some c => [c]) ++ t.deltaCmd :: t.packaging

/-- The trace of a run of `main` that reached the end of the script. -/
def mkSuccess (a : Args) (machine to_sha : String) (from_sha : Option String) :
    SuccessTrace :=
  { machine := machine
    update_repo := updateRepoOf a
    to_rev := toRevOf a machine
    from_rev := fromRevOf a machine
    to_sha := to_sha
    from_sha := from_sha
    fromRevParseExecuted := (fromRevOf a machine).isSome
    pullCmd :=
      if a.repo = updateRepoOf a then none
      else some (transferCommand (updateRepoOf a) a.repo to_sha)
    metadata := generateMetadata (metadataFromId machine from_sha) to_sha
    deltaCmd := staticDeltaCommand a.repo a.output to_sha from_sha
    packaging :=
      [tarCommand a.output, gzipCommand a.output] ++
      (if a.generate_bin then [mvCommand a.output] else []) }

/-- Result of `main`: an explicit `sys.exit`/`exit` with its code and the
warning message passed to `warning(...)` (if any), or the success trace
(after which `main` returns `None` and `sys.exit(main())` exits with 0). -/
inductive MainResult where
  | fail (code : Nat) (warningMsg : Option String)
  | success (t : SuccessTrace)
deriving DecidableEq, Repr

/-- `main` (lines 361–438), modelled from argument parsing onward. -/
def mainRun (w : RepoWorld) (a : Args) : MainResult :=
  match machineOf w a with
  | none => .fail 2 none
  | some machine =>
    match toShaOf w a machine with
    | none =>
      .fail 1 (some ("rev " ++ toRevOf a machine ++ " not found in " ++
        updateRepoOf a))
    | some to_sha =>
      match fromRevOf a machine, fromShaOf w a machine with
      | some fr, none =>
        .fail 1 (some ("rev " ++ fr ++ " not found in " ++ a.repo))
      | _, from_sha => .success (mkSuccess a machine to_sha from_sha)

/-- The process exit status produced by `sys.exit(main())`. -/
def exitCode : MainResult → Nat
  | .fail c _ => c
  | .success _ => 0

/-- Whether the run failed because a required revision did not resolve
(the two `exit(1)` sites in `main`). -/
def revFailure (w : RepoWorld) (a : Args) : Bool :=
  match machineOf w a with
  | none => false
  | some machine =>
    (toShaOf w a machine).isNone ||
    ((fromShaOf w a machine).isNone && (fromRevOf a machine).isSome)

/-! ## `_parse_args` unknown-argument handling (lines 346–349)

Argument recognition itself is `argparse`'s; we model `_parse_args` from the
point where `parser.parse_known_args()` has split the command line into the
recognized `Args` record and the list of leftover tokens. -/

/-- Result of `_parse_args`: the optional warning about unsupported
arguments (carrying exactly the unrecognized tokens) and the returned
namespace. -/
structure ParseOutcome where
  warned : Option (List String)
  args : Args
deriving DecidableEq, Repr

/-- `_parse_args` after `parse_known_args`: warn iff `unknown` is nonempty,
then return the parsed namespace unchanged. -/
def parseArgsModel (parsed : Args) (unknown : List String) : ParseOutcome :=
  { warned := if 0 < unknown.length then some unknown else none
    args := parsed }

/-! ## The metadata file parsed back

The deploy-side reader of the `metadata` file is not part of this
repository, so parsing is modelled from the spec. -/

/-- Split a character list at every newline (each `'\n'` terminates a
line); a trailing newline therefore yields a final empty piece. -/
def splitOnNl : List Char → List (List Char)
  | [] => [[]]
  | c :: cs =>
    if c = '\n' then [] :: splitOnNl cs
    else
      match splitOnNl cs with
      | [] => [[c]]
      | l :: ls => (c :: l) :: ls

/-- The `From-sha:` tag, as characters. -/
def fromTag : List Char := "From-sha:".data

/-- The `To-sha:` tag, as characters. -/
def toTag : List Char := "To-sha:".data

/-- Modelled from the spec: the deploy stage reads the metadata file back as
its two `From-sha:`/`To-sha:` lines and takes the text after each tag; the
deploy-side reader itself is not in this repository. -/
def parseMetadata (content : String) : Option (String × String) :=
  match splitOnNl content.data with
  | [l1, l2, []] =>
    if fromTag.isPrefixOf l1 && toTag.isPrefixOf l2 then
      some (String.mk (l1.drop fromTag.length), String.mk (l2.drop toTag.length))
    else none
  | _ => none

example :
    parseMetadata (generateMetadata "def456" "abc123") = some ("def456", "abc123") := by
  decide

/-! ## Concrete fixtures used by the witnesses -/

/-- Arguments of a plain single-repo invocation. -/
def argsSingle : Args :=
  { repo := "/r", output := "/o", machine := some "mach" }

/-- Arguments of a dual-repo invocation. -/
def argsDual : Args :=
  { repo := "/r", output := "/o", update_repo := some "/u",
    machine := some "mach" }

/-- Arguments of an `--empty` invocation. -/
def argsEmptyFlag : Args :=
  { repo := "/r", output := "/o", machine := some "mach", empty := true }

/-- A world in which no revision resolves. -/
def worldNoRevs : RepoWorld :=
  { refs := fun _ => ["mach"], revParse := fun _ _ => [] }

/-- A world in which only the bare ref `mach` resolves (its parent
`mach^` does not). -/
def worldTipOnly : RepoWorld :=
  { refs := fun _ => ["mach"],
    revParse := fun _ rev => if rev = "mach" then ["tsha"] else [] }

/-- A world for dual-repo runs: `mach` resolves to the update repo's tip in
`/u` and to the source repo's tip in any other repo. -/
def worldDual : RepoWorld :=
  { refs := fun _ => ["mach"],
    revParse := fun repo rev =>
      if rev = "mach" then (if repo = "/u" then ["tsha"] else ["fsha"])
      else [] }

/-- A world in which every revision expression resolves. -/
def worldAllRevs : RepoWorld :=
  { refs := fun _ => ["mach"],
    revParse := fun _ rev => if rev = "mach" then ["tsha"] else ["fsha"] }

/-! ## Helper lemmas -/

theorem isPrefixOf_append_self (a b : List Char) : a.isPrefixOf (a ++ b) = true := by
  induction a with
  | nil => simp [List.isPrefixOf]
  | cons c cs ih => simp [List.isPrefixOf, ih]

theorem drop_append_self (a b : List Char) : (a ++ b).drop a.length = b := by
  induction a with
  | nil => rfl
  | cons c cs ih => simp [ih]

theorem splitOnNl_append_line (l rest : List Char) (h : '\n' ∉ l) :
    splitOnNl (l ++ '\n' :: rest) = l :: splitOnNl rest := by
  induction l with
  | nil => simp [splitOnNl]
  | cons c cs ih =>
    simp only [List.mem_cons, not_or] at h
    have hc : ¬(c = '\n') := fun hcc => h.1 hcc.symm
    simp [splitOnNl, hc, ih h.2]

theorem splitOnNl_two_lines (l1 l2 : List Char)
    (h1 : '\n' ∉ l1) (h2 : '\n' ∉ l2) :
    splitOnNl (l1 ++ '\n' :: (l2 ++ ['\n'])) = [l1, l2, []] := by
  rw [splitOnNl_append_line l1 _ h1, splitOnNl_append_line l2 _ h2]
  rfl

theorem ne_append_of_six_lt (t u : String) (h : 6 < t.length) :
    "--from" ≠ t ++ u := by
  intro he
  have hlen := congrArg String.length he
  rw [String.length_append] at hlen
  have h6 : "--from".length = 6 := by decide
  rw [h6] at hlen
  omega

/-- Inversion of a successful `mainRun`: a machine was determined, the "to"
revision resolved, and the trace is the one `mkSuccess` builds. -/
theorem mainRun_success_inv (w : RepoWorld) (a : Args) (t : SuccessTrace)
    (h : mainRun w a = .success t) :
    ∃ m ts, machineOf w a = some m ∧ toShaOf w a m = some ts ∧
      t = mkSuccess a m ts (fromShaOf w a m) := by
  unfold mainRun at h
  cases hm : machineOf w a with
  | none => rw [hm] at h; simp at h
  | some m =>
    rw [hm] at h
    simp only [] at h
    cases hts : toShaOf w a m with
    | none => rw [hts] at h; simp at h
    | some ts =>
      rw [hts] at h
      simp only [] at h
      cases hfr : fromRevOf a m with
      | none =>
        rw [hfr] at h
        simp only [] at h
        exact ⟨m, ts, rfl, hts, by simpa using h.symm⟩
      | some fr =>
        rw [hfr] at h
        cases hfs : fromShaOf w a m with
        | none => rw [hfs] at h; simp at h
        | some fs =>
          rw [hfs] at h
          simp only [] at h
          refine ⟨m, ts, rfl, hts, ?_⟩
          rw [hfs]
          simpa using h.symm

/-! ## Claims -/

/-- C1: the spec says that a refs listing with exactly one
non-`ostree`-prefixed ref yields that ref, and any other listing yields no
machine.  The remove-while-iterating loop breaks both directions: with
`["ostree/a", "ostree/b", "x"]` (exactly one non-`ostree` ref, `"x"`) the
element after the removed one is skipped and two refs remain, so no machine
is returned (and `main` would exit with code 2); with
`["ostree/a", "ostree/a"]` (zero non-`ostree` refs) a single ref remains
and the bookkeeping ref itself is returned as the machine. -/
theorem machine_detection_loop_bug :
    determineMachineFromRepo ["ostree/a", "ostree/b", "x"] = none ∧
    (["ostree/a", "ostree/b", "x"].filter
      (fun r => !(pyStartsWith r "ostree"))) = ["x"] ∧
    determineMachineFromRepo ["ostree/a", "ostree/a"] = some "ostree/a" ∧
    (["ostree/a", "ostree/a"].filter
      (fun r => !(pyStartsWith r "ostree"))) = [] := by
  decide

/-- C2: the spec says a timed-out subprocess is killed, its output reaped,
and execution continues.  In the code the `TimeoutExpired` handler first
evaluates `ExecuteHelper._print(...)`, and `ExecuteHelper` is bound nowhere
in the module, so the handler raises `NameError` before `p.kill()` runs:
the subprocess is not terminated and control does not return normally. -/
theorem execute_command_timeout_raises (out err : String) :
    executeCommand (.timesOut out err) = .raised "NameError" ∧
    moduleGlobalNames.contains "ExecuteHelper" = false := by
  have h : moduleGlobalNames.contains "ExecuteHelper" = false := by decide
  refine ⟨?_, h⟩
  simp only [executeCommand, h, Bool.false_eq_true, if_false]

/-- C3: with `--from_sha` unset and `--empty` unset, the effective "from"
revision expression is `machine ++ "^"` when the source and update
repositories coincide (in particular whenever `--update_repo` is omitted),
and the bare machine name when they differ. -/
theorem from_rev_defaulting (a : Args) (m : String)
    (h1 : a.from_sha = none) (h2 : a.empty = false) :
    (a.update_repo = none → fromRevOf a m = some (m ++ "^")) ∧
    (a.repo = updateRepoOf a → fromRevOf a m = some (m ++ "^")) ∧
    (a.repo ≠ updateRepoOf a → fromRevOf a m = some m) := by
  refine ⟨?_, ?_, ?_⟩
  · intro hu
    have he : a.repo = updateRepoOf a := by simp [updateRepoOf, hu]
    simp [fromRevOf, h1, h2, he]
  · intro he
    simp [fromRevOf, h1, h2, he]
  · intro hne
    simp [fromRevOf, h1, h2, hne]

/-- Witness for C3 at a concrete single-repo invocation. -/
theorem from_rev_defaulting_witness :
    fromRevOf argsSingle "mach" = some "mach^" :=
  (from_rev_defaulting argsSingle "mach" rfl rfl).2.1 rfl

/-- C4: with `--empty` set (regardless of `--from_sha`), the "from"
revision is `None`, `_rev_parse_in_repo` returns without spawning a
subprocess, and on a successful run the recorded "from" hash is `None`,
no rev-parse command was executed for it, and the `static-delta generate`
argv ends with `--empty` and carries no `--from` argument. -/
theorem empty_flag_skips_from (w : RepoWorld) (a : Args) (m : String)
    (t : SuccessTrace) (h : a.empty = true) :
    fromRevOf a m = none ∧
    revParseInRepo (w.revParse a.repo) (fromRevOf a m) = (none, false) ∧
    (mainRun w a = .success t →
      t.from_sha = none ∧
      t.fromRevParseExecuted = false ∧
      t.deltaCmd =
        ["ostree", "--repo=" ++ a.repo, "static-delta", "generate",
         "--max-chunk-size=2048", "--min-fallback-size=0",
         "--filename=" ++ osPathJoin a.output "superblock",
         "--to", t.to_sha, "--empty"] ∧
      (t.to_sha ≠ "--from" → "--from" ∉ t.deltaCmd)) := by
  have hfr : ∀ m' : String, fromRevOf a m' = none := by
    intro m'; simp [fromRevOf, h]
  refine ⟨hfr m, by rw [hfr m]; rfl, ?_⟩
  intro hmain
  obtain ⟨m', ts, hm, hts, hteq⟩ := mainRun_success_inv w a t hmain
  have hfs : fromShaOf w a m' = none := by
    simp [fromShaOf, hfr m', revParseInRepo]
  subst hteq
  rw [hfs]
  refine ⟨rfl, ?_, ?_, ?_⟩
  · simp [mkSuccess, hfr m']
  · simp [mkSuccess, staticDeltaCommand]
  · intro hne
    simp only [mkSuccess, staticDeltaCommand, List.append_assoc, List.cons_append,
      List.nil_append, List.mem_cons, List.mem_singleton, not_or]
    refine ⟨by decide, ?_, by decide, by decide, by decide, by decide, ?_, by decide, ?_, by decide, by simp⟩
    · exact ne_append_of_six_lt "--repo=" a.repo (by decide)
    · exact ne_append_of_six_lt "--filename=" (osPathJoin a.output "superblock") (by decide)
    · exact fun hc => hne (by simpa [mkSuccess] using hc.symm)

/-- Witness for C4 at a concrete `--empty` run. -/
theorem empty_flag_skips_from_witness :
    fromRevOf argsEmptyFlag "mach" = none ∧
    (mkSuccess argsEmptyFlag "mach" "tsha" none).from_sha = none ∧
    "--empty" ∈ (mkSuccess argsEmptyFlag "mach" "tsha" none).deltaCmd := by
  have h := empty_flag_skips_from worldTipOnly argsEmptyFlag "mach"
    (mkSuccess argsEmptyFlag "mach" "tsha" none) rfl
  have h2 := h.2.2 rfl
  exact ⟨h.1, h2.1, by rw [h2.2.2.1]; decide⟩

/-- C5: if the rev-parse of the "to" revision expression prints no lines,
`main` warns naming that revision and the update repository and exits with
code 1; if a non-`None` "from" revision expression prints no lines, `main`
warns naming it and the source repository and exits with code 1. -/
theorem unresolved_rev_exits_one (w : RepoWorld) (a : Args) (m : String) :
    (machineOf w a = some m →
      w.revParse (updateRepoOf a) (toRevOf a m) = [] →
      mainRun w a =
        .fail 1 (some ("rev " ++ toRevOf a m ++ " not found in " ++
          updateRepoOf a))) ∧
    (∀ fr, machineOf w a = some m →
      (toShaOf w a m).isSome = true →
      fromRevOf a m = some fr →
      w.revParse a.repo fr = [] →
      mainRun w a =
        .fail 1 (some ("rev " ++ fr ++ " not found in " ++ a.repo))) := by
  constructor
  · intro hm hrev
    have hts : toShaOf w a m = none := by
      simp [toShaOf, revParseInRepo, hrev]
    simp [mainRun, hm, hts]
  · intro fr hm hts hfr hrev
    obtain ⟨ts, hts'⟩ := Option.isSome_iff_exists.mp hts
    have hfs : fromShaOf w a m = none := by
      simp [fromShaOf, revParseInRepo, hfr, hrev]
    simp [mainRun, hm, hts', hfr, hfs]

/-- Witness for C5: one run whose "to" revision does not resolve, and one
whose defaulted "from" revision `mach^` does not resolve. -/
theorem unresolved_rev_exits_one_witness :
    mainRun worldNoRevs argsSingle =
      .fail 1 (some ("rev " ++ "mach" ++ " not found in " ++ "/r")) ∧
    mainRun worldTipOnly argsSingle =
      .fail 1 (some ("rev " ++ "mach^" ++ " not found in " ++ "/r")) :=
  ⟨(unresolved_rev_exits_one worldNoRevs argsSingle "mach").1 rfl rfl,
   (unresolved_rev_exits_one worldTipOnly argsSingle "mach").2 "mach^"
     rfl rfl rfl rfl⟩

/-- C6: metadata generation is a pure serialization.  The file content is
exactly the two tagged lines; parsing them back recovers exactly the
identifiers passed in (for newline-free identifiers, which commit hashes
and ref names are); and the "from" identifier is the resolved from-hash
when one exists and the machine name otherwise. -/
theorem metadata_roundtrip :
    (∀ f t : String, '\n' ∉ f.data → '\n' ∉ t.data →
      parseMetadata (generateMetadata f t) = some (f, t)) ∧
    (∀ machine to_sha : String, ∀ from_sha : Option String,
      generateMetadata (metadataFromId machine from_sha) to_sha =
        "From-sha:" ++ metadataFromId machine from_sha ++ "\n" ++
        "To-sha:" ++ to_sha ++ "\n") ∧
    (∀ machine : String, metadataFromId machine none = machine) ∧
    (∀ machine f : String, metadataFromId machine (some f) = f) := by
  refine ⟨?_, fun _ _ _ => rfl, fun _ => rfl, fun _ _ => rfl⟩
  intro f t hf ht
  have hF : '\n' ∉ fromTag ++ f.data := by
    intro hmem
    rcases List.mem_append.mp hmem with hx | hx
    · revert hx; decide
    · exact hf hx
  have hT : '\n' ∉ toTag ++ t.data := by
    intro hmem
    rcases List.mem_append.mp hmem with hx | hx
    · revert hx; decide
    · exact ht hx
  have hdata : (generateMetadata f t).data =
      (fromTag ++ f.data) ++ '\n' :: ((toTag ++ t.data) ++ ['\n']) := by
    simp [generateMetadata, String.data_append, fromTag, toTag]
  have key : splitOnNl (generateMetadata f t).data =
      [fromTag ++ f.data, toTag ++ t.data, []] := by
    rw [hdata]
    exact splitOnNl_two_lines _ _ hF hT
  unfold parseMetadata
  rw [key]
  simp only [isPrefixOf_append_self, Bool.and_self, if_true]
  rw [drop_append_self, drop_append_self]

/-- Witness for C6 at concrete commit hashes. -/
theorem metadata_roundtrip_witness :
    parseMetadata (generateMetadata "def456" "abc123") =
      some ("def456", "abc123") :=
  metadata_roundtrip.1 "def456" "abc123" (by decide) (by decide)

/-- C7: whenever the source and update repositories differ, a successful
run issues `ostree --repo=<source> pull-local <update> <to_sha>` (the
source repository is the destination) and does so before the
`static-delta generate` command; when they coincide no pull is issued. -/
theorem cross_repo_pull (w : RepoWorld) (a : Args) (t : SuccessTrace)
    (h : mainRun w a = .success t) :
    (a.repo ≠ updateRepoOf a →
      t.pullCmd = some (transferCommand (updateRepoOf a) a.repo t.to_sha) ∧
      t.postResolveCommands =
        transferCommand (updateRepoOf a) a.repo t.to_sha ::
          t.deltaCmd :: t.packaging) ∧
    (a.repo = updateRepoOf a →
      t.pullCmd = none ∧
      t.postResolveCommands = t.deltaCmd :: t.packaging) := by
  obtain ⟨m, ts, hm, hts, hteq⟩ := mainRun_success_inv w a t h
  subst hteq
  constructor
  · intro hne
    have hpull : (mkSuccess a m ts (fromShaOf w a m)).pullCmd =
        some (transferCommand (updateRepoOf a) a.repo ts) := by
      simp [mkSuccess, hne]
    refine ⟨by simpa [mkSuccess] using hpull, ?_⟩
    simp [SuccessTrace.postResolveCommands, mkSuccess, hne]
  · intro heq
    have hpull : (mkSuccess a m ts (fromShaOf w a m)).pullCmd = none := by
      simp [mkSuccess, heq]
    refine ⟨hpull, ?_⟩
    simp [SuccessTrace.postResolveCommands, hpull]

/-- Witness for C7 at a concrete dual-repo run. -/
theorem cross_repo_pull_witness :
    (mkSuccess argsDual "mach" "tsha" (some "fsha")).pullCmd =
      some (transferCommand "/u" "/r" "tsha") := by
  have h := cross_repo_pull worldDual argsDual
    (mkSuccess argsDual "mach" "tsha" (some "fsha")) rfl
  exact (h.1 (by decide)).1

/-- C8: over the pipeline of `main` (argument parsing having succeeded),
the exit status produced by `sys.exit(main())` is 2 exactly when no machine
name could be determined, 1 exactly when a required revision expression
failed to resolve to a commit hash, and 0 exactly on success. -/
theorem exit_code_partition (w : RepoWorld) (a : Args) :
    (exitCode (mainRun w a) = 2 ↔ machineOf w a = none) ∧
    (exitCode (mainRun w a) = 1 ↔ revFailure w a = true) ∧
    (exitCode (mainRun w a) = 0 ↔ ∃ t, mainRun w a = .success t) := by
  cases hm : machineOf w a with
  | none => simp [mainRun, exitCode, revFailure, hm]
  | some m =>
    cases hts : toShaOf w a m with
    | none => simp [mainRun, exitCode, revFailure, hm, hts]
    | some ts =>
      cases hfr : fromRevOf a m with
      | none =>
        have hfs : fromShaOf w a m = none := by
          simp [fromShaOf, hfr, revParseInRepo]
        simp [mainRun, exitCode, revFailure, hm, hts, hfr, hfs]
      | some fr =>
        cases hfs : fromShaOf w a m with
        | none => simp [mainRun, exitCode, revFailure, hm, hts, hfr, hfs]
        | some fs => simp [mainRun, exitCode, revFailure, hm, hts, hfr, hfs]

/-- C9: when `parse_known_args` leaves unrecognized tokens, `_parse_args`
issues a warning carrying exactly those tokens and still returns the parsed
namespace unchanged, so the rest of the run is identical to one without the
unrecognized flags — they never cause a failure or a nonzero exit by
themselves. -/
theorem unknown_args_warn_and_continue (w : RepoWorld) (parsed : Args)
    (unknown : List String) (h : unknown ≠ []) :
    (parseArgsModel parsed unknown).warned = some unknown ∧
    (parseArgsModel parsed unknown).args = parsed ∧
    mainRun w (parseArgsModel parsed unknown).args = mainRun w parsed := by
  have hlen : 0 < unknown.length := List.length_pos.mpr h
  exact ⟨by simp [parseArgsModel, hlen], rfl, rfl⟩

/-- Witness for C9 with one unsupported flag. -/
theorem unknown_args_warn_and_continue_witness :
    (parseArgsModel argsSingle ["--bogus"]).warned = some ["--bogus"] ∧
    mainRun worldAllRevs (parseArgsModel argsSingle ["--bogus"]).args =
      mainRun worldAllRevs argsSingle := by
  have h := unknown_args_warn_and_continue worldAllRevs argsSingle
    ["--bogus"] (by decide)
  exact ⟨h.1, h.2.2⟩

/-- C10 as stated is false: a log line that begins with the field name but
carries no value makes the loop body raise `IndexError`
(`line.split()[1]`), so for the log output `["commit"]` and field
`"commit"` the helper raises instead of returning a non-empty list, even
though a line starting with the field name is present. -/
theorem get_data_missing_value_raises :
    getDataFromRepo ["commit"] "commit" = .error () ∧
    pyStartsWith "commit" "commit" = true ∧
    getShasFromRepo ["commit"] = .error () := by
  exact ⟨rfl, rfl, rfl⟩

theorem getDataLoop_ok (data : String) (ls : List String)
    (h : ∀ line ∈ ls, pyStartsWith line data = true →
      (extractField data line).isSome = true) :
    ∃ vs, getDataLoop data ls = .ok vs ∧
      (vs = [] ↔ ∀ line ∈ ls, pyStartsWith line data = false) := by
  induction ls with
  | nil => exact ⟨[], rfl, by simp⟩
  | cons line rest ih =>
    obtain ⟨vs, hvs, hiff⟩ := ih (fun l hl => h l (List.mem_cons_of_mem _ hl))
    by_cases hs : pyStartsWith line data = true
    · obtain ⟨v, hv⟩ := Option.isSome_iff_exists.mp
        (h line (List.mem_cons_self _ _) hs)
      refine ⟨v :: vs, ?_, ?_⟩
      · simp [getDataLoop, hs, hv, hvs, Except.map]
      · simp [hs]
    · have hs' : pyStartsWith line data = false := by
        simpa using hs
      refine ⟨vs, ?_, ?_⟩
      · simp [getDataLoop, hs', hvs]
      · rw [hiff]
        constructor
        · intro hall l hl
          rcases List.mem_cons.mp hl with hl' | hl'
          · rw [hl']; exact hs'
          · exact hall l hl'
        · intro hall l hl
          exact hall l (List.mem_cons_of_mem _ hl)

/-- C10 amended: provided every log line that begins with the requested
field name carries a value (a second whitespace-separated token, or for
`"Date"` a colon), the extraction helper returns without raising, never
returns an empty list, returns a non-empty value list when at least one
line starts with the field name, and returns `None` otherwise. -/
theorem get_data_nonempty_or_none (logLines : List String) (data : String)
    (h : ∀ line ∈ logLines, pyStartsWith line data = true →
      (extractField data line).isSome = true) :
    ∃ r, getDataFromRepo logLines data = .ok r ∧
      (∀ vs, r = some vs → vs ≠ []) ∧
      ((∃ line ∈ logLines, pyStartsWith line data = true) →
        ∃ vs, r = some vs ∧ vs ≠ []) ∧
      ((∀ line ∈ logLines, pyStartsWith line data = false) → r = none) := by
  obtain ⟨vs, hvs, hiff⟩ := getDataLoop_ok data logLines h
  cases vs with
  | nil =>
    refine ⟨none, ?_, ?_, ?_, fun _ => rfl⟩
    · simp [getDataFromRepo, hvs, Except.map]
    · intro vs0 h0; cases h0
    · rintro ⟨line, hl, hsw⟩
      have := hiff.mp rfl line hl
      rw [hsw] at this
      cases this
  | cons v vs' =>
    refine ⟨some (v :: vs'), ?_, ?_, ?_, ?_⟩
    · simp [getDataFromRepo, hvs, Except.map]
    · intro vs0 h0
      cases h0
      simp
    · intro _
      exact ⟨v :: vs', rfl, by simp⟩
    · intro hall
      have := hiff.mpr hall
      cases this

/-- Witness for the amended C10 on a well-formed `ostree log` output. -/
theorem get_data_nonempty_or_none_witness :
    ∃ r, getDataFromRepo ["commit abc123", "Date:  2021-01-01 10:00:00"]
        "commit" = .ok r ∧
      (∀ vs, r = some vs → vs ≠ []) ∧
      ((∃ line ∈ ["commit abc123", "Date:  2021-01-01 10:00:00"],
          pyStartsWith line "commit" = true) → ∃ vs, r = some vs ∧ vs ≠ []) ∧
      ((∀ line ∈ ["commit abc123", "Date:  2021-01-01 10:00:00"],
          pyStartsWith line "commit" = false) → r = none) :=
  get_data_nonempty_or_none ["commit abc123", "Date:  2021-01-01 10:00:00"]
    "commit" (by decide)

/-- Witness for C8: a concrete run that succeeds has exit status 0. -/
theorem exit_code_partition_witness :
    exitCode (mainRun worldAllRevs argsSingle) = 0 :=
  (exit_code_partition worldAllRevs argsSingle).2.2.mpr
    ⟨mkSuccess argsSingle "mach" "tsha" (some "fsha"), rfl⟩
